import Mathlib

/- Shallow embedding of the CruiseControlOperation reconciler
   (controllers/cruisecontroloperation_controller.go) of the koperator
   repository.  Pure Go functions become Lean functions; the in-place
   mutation of the operation record in updateResult becomes explicit
   record updates; time.Now and time.Parse (RFC1123) of the Go standard
   library are passed in as explicit parameters.  Helper methods of the
   api package (IsDone, SetDefaults, the bucket predicates), which are
   not part of the analysed source tree, are modelled from the spec and
   say so in their doc comments. -/

namespace Koperator

/-- Lifecycle states of a Cruise Control user task, as used by the controller; empty is the Go zero value of the state string. -/
inductive TaskState where
  | empty
  | active
  | inExecution
  | completed
  | completedWithError
  deriving DecidableEq

/-- Operation kinds of a current task; unknownKind stands for any string outside the four supported values (including the empty string). -/
inductive OperationKind where
  | addBroker
  | removeBroker
  | rebalance
  | stopExecution
  | unknownKind
  deriving DecidableEq

/-- Error policy of an operation record; per the spec it governs whether a failed attempt is retried or surfaced as terminal. -/
inductive ErrorPolicy where
  | retry
  | ignore
  deriving DecidableEq

/-- One execution attempt of an operation: the shape of Status.CurrentTask and of the entries of Status.FailedTasks. -/
structure CruiseControlTask where
  id : String
  operation : OperationKind
  state : TaskState
  started : Option Int
  finished : Option Int
  errorMessage : String
  httpRequest : String
  httpResponseCode : Option Int
  summary : Option (List (String × String))
  deriving DecidableEq

/-- Status subresource of a CruiseControlOperation record. -/
structure OperationStatus where
  currentTask : CruiseControlTask
  errorPolicy : ErrorPolicy
  retryCount : Nat
  failedTasks : List CruiseControlTask
  deriving DecidableEq

/-- A CruiseControlOperation record: the metadata fields the controller reads (finalizers, deletion timestamp, creation timestamp, cluster reference label) plus spec error policy and status. -/
structure CruiseControlOperation where
  name : String
  creationUnix : Int
  finalizers : List String
  deletionUnix : Option Int
  clusterRef : String
  specErrorPolicy : ErrorPolicy
  status : OperationStatus
  deriving DecidableEq

/-- Source constant defaultFailedTasksHistoryMaxLength. -/
def defaultFailedTasksHistoryMaxLength : Nat := 50

/-- Source constant ccOperationFinalizerGroup. -/
def ccOperationFinalizerGroup : String := "finalizer.cruisecontroloperations.kafka.banzaicloud.io"

/-- Source variable defaultRequeueIntervalInSeconds. -/
def defaultRequeueIntervalInSeconds : Int := 10

/-- Source variable executionPriorityMap; a Go map lookup yields the zero value 0 for every kind that is not a key of the map. -/
def executionPriorityMap : OperationKind → Int
  | .addBroker => 2
  | .removeBroker => 1
  | .rebalance => 0
  | .stopExecution => 0
  | .unknownKind => 0

/-- Source variable missingCCResErr, the sentinel error for a missing Cruise Control user task result. -/
def missingCCResErr : String := "missing Cruise Control user task result"

/-- CurrentTaskOperation of the api package: the operation kind recorded in the current task. -/
def CruiseControlOperation.currentTaskOperation (o : CruiseControlOperation) : OperationKind :=
  o.status.currentTask.operation

/-- CurrentTaskID of the api package: the Cruise Control user task ID recorded in the current task. -/
def CruiseControlOperation.currentTaskID (o : CruiseControlOperation) : String :=
  o.status.currentTask.id

/-- Modelled from the spec: IsDone of the api package is not under the analysed source tree; per the spec a record is done exactly when it reached a terminal state, that is Completed, or CompletedWithError when the recorded error policy forbids retry. -/
def CruiseControlOperation.isDone (o : CruiseControlOperation) : Bool :=
  o.status.currentTask.state == .completed ||
    (o.status.currentTask.state == .completedWithError && o.status.errorPolicy == .ignore)

/-- Modelled from the spec: IsCurrentTaskRunning of the api package is not under the analysed source tree; per the spec a task is actively running when it is a live, already dispatched, not yet terminal job. -/
def CruiseControlOperation.isCurrentTaskRunning (o : CruiseControlOperation) : Bool :=
  o.status.currentTask.state == .active || o.status.currentTask.state == .inExecution

/-- Modelled from the spec: IsCurrentTaskOperationValid of the api package is not under the analysed source tree; the supported kinds are the four operation verbs. -/
def CruiseControlOperation.isCurrentTaskOperationValid (o : CruiseControlOperation) : Bool :=
  !(o.currentTaskOperation == .unknownKind)

/-- Modelled from the spec: IsWaitingForFirstExecution of the api package is not under the analysed source tree; per the spec these are records whose task has never been dispatched. -/
def CruiseControlOperation.isWaitingForFirstExecution (o : CruiseControlOperation) : Bool :=
  o.status.currentTask.state == .empty && o.status.currentTask.id == ""

/-- Modelled from the spec: IsWaitingForRetryExecution of the api package is not under the analysed source tree; per the spec these are records whose last attempt failed and whose error policy permits retry. -/
def CruiseControlOperation.isWaitingForRetryExecution (o : CruiseControlOperation) : Bool :=
  o.status.currentTask.state == .completedWithError && o.status.errorPolicy == .retry

/-- Modelled from the spec: IsInProgress of the api package is not under the analysed source tree; per the spec these are records with a live, already dispatched, not yet terminal job. -/
def CruiseControlOperation.isInProgress (o : CruiseControlOperation) : Bool :=
  o.isCurrentTaskRunning

/-- ContainsFinalizer of controller-runtime, specialised to the finalizer group used by the controller. -/
def containsFinalizer (o : CruiseControlOperation) : Bool :=
  o.finalizers.contains ccOperationFinalizerGroup

/-- RemoveFinalizer of controller-runtime: drop every occurrence of the finalizer token. -/
def removeFinalizer (o : CruiseControlOperation) : CruiseControlOperation :=
  {o with finalizers := o.finalizers.filter (fun f => !(f == ccOperationFinalizerGroup))}

/-- AddFinalizer of controller-runtime: append the token when absent. -/
def addFinalizerToken (o : CruiseControlOperation) : CruiseControlOperation :=
  if containsFinalizer o then o else {o with finalizers := o.finalizers ++ [ccOperationFinalizerGroup]}

/-- isFinalizerNeeded of the source: the record carries the finalizer and is marked for deletion. -/
def isFinalizerNeeded (o : CruiseControlOperation) : Bool :=
  containsFinalizer o && o.deletionUnix.isSome

/-- isWaitingForFinalization of the source: running, marked for deletion, and still carrying the finalizer. -/
def isWaitingForFinalization (o : CruiseControlOperation) : Bool :=
  o.isCurrentTaskRunning && o.deletionUnix.isSome && containsFinalizer o

/-- Optimization summary carried by a Cruise Control result, the fields read by formatSummary. -/
structure OptimizationSummary where
  dataToMoveMB : Int
  numReplicaMovements : Int
  intraBrokerDataToMoveMB : Int
  numIntraBrokerReplicaMovements : Int
  numLeaderMovements : Int
  recentWindows : Int
  provisionRecommendation : String
  deriving DecidableEq

/-- scale.Result as consumed by the controller: job ID, lifecycle state, start time text, error, HTTP diagnostics and optimization summary. -/
structure ScaleResult where
  taskID : String
  state : TaskState
  err : Option String
  startedAt : String
  requestURL : String
  responseStatusCode : Int
  result : Option OptimizationSummary
  deriving DecidableEq

/-- formatSummary of the source: a nil optimization result yields a nil map, otherwise the fixed set of formatted entries. -/
def formatSummary : Option OptimizationSummary → Option (List (String × String))
  | none => none
  | some s => some
      [("Data to move", toString s.dataToMoveMB),
       ("Number of replica movements", toString s.numReplicaMovements),
       ("Intra broker data to move", toString s.intraBrokerDataToMoveMB),
       ("Number of intra broker replica movements", toString s.numIntraBrokerReplicaMovements),
       ("Number of leader movements", toString s.numLeaderMovements),
       ("Recent windows", toString s.recentWindows),
       ("Provision recommendation", s.provisionRecommendation)]

/-- Modelled from the spec: SetDefaults of the api package is not under the analysed source tree; per the spec it resets task-level defaults so the next pass treats the record as eligible for a fresh classification, clearing every per-attempt field while keeping the operation kind. -/
def CruiseControlTask.setDefaults (t : CruiseControlTask) : CruiseControlTask :=
  {t with id := "", state := .empty, started := none, finished := none,
          errorMessage := "", httpRequest := "", httpResponseCode := none, summary := none}

/-- The FailedTasks archive step of updateResult: evict the oldest entry when the history is already at the maximum length, then append the new snapshot. -/
def evictAndAppend (history : List CruiseControlTask) (t : CruiseControlTask) : List CruiseControlTask :=
  (if history.length ≥ defaultFailedTasksHistoryMaxLength then history.drop 1 else history) ++ [t]

/-- The result synthesized by updateResult when no Cruise Control result is available for the record: the current task ID, state CompletedWithError and the sentinel missing-result error, all other fields the Go zero values. -/
def synthesizeMissingResult (o : CruiseControlOperation) : ScaleResult :=
  { taskID := o.currentTaskID
    state := .completedWithError
    err := some missingCCResErr
    startedAt := ""
    requestURL := ""
    responseStatusCode := 0
    result := none }

/-- Replace the current task of a record. -/
def setCurrentTask (o : CruiseControlOperation) (t : CruiseControlTask) : CruiseControlOperation :=
  {o with status.currentTask := t}

/-- First phase of updateResult: copy the spec error policy to the status, set the Finished timestamp on first observation of a terminal result state, and, on a post-execution update of a task whose recorded state is CompletedWithError with Finished set, archive the task into FailedTasks, increment RetryCount and reset the task to defaults. -/
def mergeTerminalAndArchive (now : Int) (res : ScaleResult) (o : CruiseControlOperation)
    (isAfterExecution : Bool) : CruiseControlOperation :=
  let o1 := {o with status.errorPolicy := o.specErrorPolicy}
  let task := o1.status.currentTask
  let task :=
    if (res.state == .completed || res.state == .completedWithError) && task.finished.isNone then
      {task with finished := some now}
    else task
  if isAfterExecution && task.finished.isSome && task.state == .completedWithError then
    {o1 with status.failedTasks := evictAndAppend o1.status.failedTasks task,
             status.retryCount := o1.status.retryCount + 1,
             status.currentTask := task.setDefaults}
  else
    setCurrentTask o1 task

/-- The post-execution field recording of updateResult: job ID, formatted summary, error message when the result carries an error, and the HTTP diagnostics. -/
def applyResultFields (res : ScaleResult) (t : CruiseControlTask) : CruiseControlTask :=
  { t with id := res.taskID
           summary := formatSummary res.result
           errorMessage := match res.err with | some e => e | none => t.errorMessage
           httpRequest := res.requestURL
           httpResponseCode := some res.responseStatusCode }

/-- The error message updateResult returns when the start time text does not parse. -/
def startTimeParseErrMsg : String := "could not parse user task start time from Cruise Control API"

/-- updateResult of the source. The first component is the returned error; the second is the record as mutated so far, since the Go function mutates the record in place and may return an error midway. The parameters parseTime and now stand for time.Parse with the RFC1123 layout and time.Now of the Go standard library. -/
def updateResult (parseTime : String → Option Int) (now : Int)
    (res? : Option ScaleResult) (o : CruiseControlOperation) (isAfterExecution : Bool) :
    Option String × CruiseControlOperation :=
  let res := match res? with
    | none => synthesizeMissingResult o
    | some r => r
  let o1 := mergeTerminalAndArchive now res o isAfterExecution
  let task := o1.status.currentTask
  if isAfterExecution then
    if task.started.isNone then
      match parseTime res.startedAt with
      | none => (some startTimeParseErrMsg, o1)
      | some st =>
        let task := applyResultFields res {task with started := some st}
        (none, setCurrentTask o1 {task with state := res.state})
    else
      let task := applyResultFields res task
      (none, setCurrentTask o1 {task with state := res.state})
  else
    (none, setCurrentTask o1 {task with state := res.state})

/-- The comparison closure passed to sort.SliceStable in sortOperations: strictly higher operation-kind priority first, and for equal priority strictly earlier creation time first. -/
def ccOperationLess (a b : CruiseControlOperation) : Bool :=
  decide (executionPriorityMap a.currentTaskOperation > executionPriorityMap b.currentTaskOperation) ||
    (decide (executionPriorityMap a.currentTaskOperation = executionPriorityMap b.currentTaskOperation) &&
      decide (a.creationUnix < b.creationUnix))

/-- The non-strict order induced by ccOperationLess: a may stay before b exactly when b need not come strictly before a. A stable sort under ccOperationLess sorts into this order. -/
def ccOperationLe (a b : CruiseControlOperation) : Prop :=
  ccOperationLess b a = false

instance : DecidableRel ccOperationLe := fun a b => by
  unfold ccOperationLe
  infer_instance

/-- The four execution-readiness buckets of the ccOperationQueueMap. -/
structure OperationQueues where
  stop : List CruiseControlOperation
  firstRun : List CruiseControlOperation
  retryRun : List CruiseControlOperation
  inProgress : List CruiseControlOperation

/-- The bucket sorting of sortOperations, a stable sort under ccOperationLess as performed by sort.SliceStable. -/
def sortQueue (q : List CruiseControlOperation) : List CruiseControlOperation :=
  List.insertionSort ccOperationLe q

/-- sortOperations of the source: classify each record into the first bucket whose predicate it satisfies (the Go switch takes the first matching case; a record matching no case lands in no bucket), then stably sort every bucket under ccOperationLess. -/
def sortOperations (ops : List CruiseControlOperation) : OperationQueues :=
  { stop := sortQueue (ops.filter isWaitingForFinalization)
    firstRun := sortQueue (ops.filter fun o =>
      !isWaitingForFinalization o && o.isWaitingForFirstExecution)
    retryRun := sortQueue (ops.filter fun o =>
      !isWaitingForFinalization o && !o.isWaitingForFirstExecution && o.isWaitingForRetryExecution)
    inProgress := sortQueue (ops.filter fun o =>
      !isWaitingForFinalization o && !o.isWaitingForFirstExecution &&
        !o.isWaitingForRetryExecution && o.isInProgress) }

/-- selectOperationForExecution of the source. IsReadyForRetryExecution of the api package (the retry backoff window) is not under the analysed source tree and is passed in as the predicate isReadyForRetry. The head of the StopExecution bucket has its current task kind overwritten to stop-execution, as the source mutates the selected record. -/
def selectOperationForExecution (isReadyForRetry : CruiseControlOperation → Bool)
    (q : OperationQueues) : Option CruiseControlOperation :=
  match q.stop with
  | o :: _ => some {o with status.currentTask.operation := .stopExecution}
  | [] =>
    match q.firstRun with
    | f :: _ =>
      if f.currentTaskOperation == .addBroker then some f
      else
        match q.retryRun with
        | r :: _ => if isReadyForRetry r then some r else none
        | [] => some f
    | [] =>
      match q.retryRun with
      | r :: _ => if isReadyForRetry r then some r else none
      | [] => none

/-- Cruise Control engine status as consumed by the controller: readiness and whether a job is currently executing. -/
structure CruiseControlEngineStatus where
  ready : Bool
  inExecution : Bool
  deriving DecidableEq

/-- Outcome of one reconciliation pass: reconciled, requeue after a fixed interval, or requeue with an error. -/
inductive ReconcileOutcome where
  | reconciled
  | requeueAfter (seconds : Int)
  | requeueWithError (msg : String)
  deriving DecidableEq

/-- Outcome of the kafka cluster lookup in the reconciliation pass. -/
inductive ClusterLookup where
  | found
  | notFound
  | lookupError
  deriving DecidableEq

/-- The tail of the reconciliation pass after dispatching the selected operation: a dispatch error with no result ends the pass with requeue-with-error and leaves the record untouched; otherwise the result (nil included) is merged post-execution via updateResult, whose error likewise ends the pass with requeue-with-error. -/
def postDispatch (parseTime : String → Option Int) (now : Int)
    (dispatchErr : Bool) (res? : Option ScaleResult) (sel : CruiseControlOperation) :
    ReconcileOutcome × CruiseControlOperation :=
  if dispatchErr && res?.isNone then
    (.requeueWithError "CruiseControlOperation custom resource is invalid", sel)
  else
    match updateResult parseTime now res? sel true with
    | (some e, sel1) => (.requeueWithError e, sel1)
    | (none, sel1) => (.reconciled, sel1)

/-- Environment of one reconciliation pass: everything the pass reads from collaborators. postPollStatus is the status of the triggering record after the poll merge of updateCurrentTasks; filteredOps is the cluster-filtered list of in-scope, non-done records after that merge; dispatchErr and dispatchResult are what executeOperation returns for the selected record. -/
structure ReconcileEnv where
  clusterLookup : ClusterLookup
  ccStatus : Option CruiseControlEngineStatus
  pollOk : Bool
  postPollStatus : OperationStatus
  filteredOps : List CruiseControlOperation
  isReadyForRetry : CruiseControlOperation → Bool
  dispatchErr : Bool
  dispatchResult : Option ScaleResult
  parseTime : String → Option Int
  now : Int

/-- Result of one modelled reconciliation pass: the outcome, the triggering record as left by the pass, the record dispatched to Cruise Control (if any) and its post-merge state. -/
structure ReconcileOut where
  outcome : ReconcileOutcome
  trigger : CruiseControlOperation
  dispatched : Option CruiseControlOperation
  executed : Option CruiseControlOperation

/-- The reconciliation pass of the source for one triggering record, as a pure decision function over the environment. Store updates and the scaler construction are assumed to succeed; they never touch the finalizer list. The early exits mirror the source order: done-with-finalizer fast path, operation validity, cluster reference, cluster lookup, finalizer attach, engine status and readiness, poll merge, finalizer removal for a non-running task, classification, selection, the single-flight gate, dispatch and the post-execution merge. -/
def reconcileModel (env : ReconcileEnv) (op0 : CruiseControlOperation) : ReconcileOut :=
  if isFinalizerNeeded op0 && op0.isDone then
    ⟨.reconciled, removeFinalizer op0, none, none⟩
  else if !op0.isCurrentTaskOperationValid then
    ⟨.reconciled, op0, none, none⟩
  else if op0.clusterRef == "" then
    ⟨.requeueWithError "could not find kafka cluster reference label for CruiseControlOperation", op0, none, none⟩
  else
    match env.clusterLookup with
    | .lookupError => ⟨.requeueWithError "failed to lookup referenced kafka cluster", op0, none, none⟩
    | .notFound =>
      if op0.deletionUnix.isSome then ⟨.reconciled, removeFinalizer op0, none, none⟩
      else ⟨.reconciled, op0, none, none⟩
    | .found =>
      let op1 := if op0.deletionUnix.isNone then addFinalizerToken op0 else op0
      match env.ccStatus with
      | none => ⟨.requeueAfter defaultRequeueIntervalInSeconds, op1, none, none⟩
      | some st =>
        if !st.ready then ⟨.requeueAfter defaultRequeueIntervalInSeconds, op1, none, none⟩
        else if !env.pollOk then ⟨.requeueAfter defaultRequeueIntervalInSeconds, op1, none, none⟩
        else
          let op2 := {op1 with status := env.postPollStatus}
          if isFinalizerNeeded op2 && !op2.isCurrentTaskRunning then
            ⟨.reconciled, removeFinalizer op2, none, none⟩
          else
            let q := sortOperations env.filteredOps
            if q.stop.isEmpty && q.firstRun.isEmpty && q.retryRun.isEmpty && q.inProgress.isEmpty then
              ⟨.reconciled, op2, none, none⟩
            else
              match selectOperationForExecution env.isReadyForRetry q with
              | none => ⟨.requeueAfter defaultRequeueIntervalInSeconds, op2, none, none⟩
              | some sel =>
                if (st.inExecution || !q.inProgress.isEmpty) &&
                    !(sel.currentTaskOperation == .stopExecution) then
                  ⟨.requeueAfter defaultRequeueIntervalInSeconds, op2, none, none⟩
                else
                  let out := postDispatch env.parseTime env.now env.dispatchErr env.dispatchResult sel
                  ⟨out.1, op2, some sel, some out.2⟩

/-! Concrete example inputs used by counterexamples and witnesses. -/

/-- A current task that has never been dispatched: all fields at their Go zero values except the operation kind. -/
def exFreshTask : CruiseControlTask :=
  { id := "", operation := .rebalance, state := .empty, started := none, finished := none,
    errorMessage := "", httpRequest := "", httpResponseCode := none, summary := none }

/-- A record whose task has never been dispatched. -/
def exOpFresh : CruiseControlOperation :=
  { name := "op-fresh", creationUnix := 0, finalizers := [], deletionUnix := none,
    clusterRef := "kafka", specErrorPolicy := .retry,
    status := { currentTask := exFreshTask, errorPolicy := .retry, retryCount := 0, failedTasks := [] } }

/-- A record whose previous attempt failed: state CompletedWithError with Started and Finished set. -/
def exOpFailed : CruiseControlOperation :=
  { exOpFresh with
    name := "op-failed"
    status.currentTask :=
      { exFreshTask with
        id := "old-1"
        state := .completedWithError
        started := some 40
        finished := some 50 } }

/-- A dispatch result that finished in error. -/
def exResCWE : ScaleResult :=
  { taskID := "task-1", state := .completedWithError, err := some "retryable failure",
    startedAt := "stamp-ok", requestURL := "req-url", responseStatusCode := 200, result := none }

/-- An RFC1123 parser stand-in that accepts exactly the stamp used by exResCWE. -/
def exParse : String → Option Int :=
  fun s => if s == "stamp-ok" then some 1000 else none

/-- A run of 51 distinct failed-task snapshots. -/
def exManyTasks : List CruiseControlTask :=
  (List.range 51).map (fun i => {exFreshTask with id := toString i})

/-- A never-dispatched rebalance record created early. -/
def exOpR : CruiseControlOperation := {exOpFresh with name := "r", creationUnix := 1}

/-- A never-dispatched add-broker record created last. -/
def exOpA2 : CruiseControlOperation :=
  {exOpFresh with name := "a2", creationUnix := 5, status.currentTask.operation := .addBroker}

/-- A never-dispatched add-broker record created between the two. -/
def exOpA1 : CruiseControlOperation :=
  {exOpFresh with name := "a1", creationUnix := 3, status.currentTask.operation := .addBroker}

/-- A record that is running, marked for deletion and carries the deletion guard. -/
def exOpRunningDeleting : CruiseControlOperation :=
  { exOpFresh with
    name := "op-running-deleting"
    finalizers := [ccOperationFinalizerGroup]
    deletionUnix := some 3
    status.currentTask := {exFreshTask with id := "job-1", state := .inExecution} }

/-- An environment in which the referenced kafka cluster is not found. -/
def exEnvClusterGone : ReconcileEnv :=
  { clusterLookup := .notFound
    ccStatus := some ⟨true, false⟩
    pollOk := true
    postPollStatus := exOpRunningDeleting.status
    filteredOps := []
    isReadyForRetry := fun _ => true
    dispatchErr := false
    dispatchResult := none
    parseTime := exParse
    now := 99 }

/-- A record with a live, already dispatched, not yet terminal job. -/
def exOpInProg : CruiseControlOperation :=
  { exOpFresh with
    name := "op-inprog"
    status.currentTask := {exFreshTask with id := "job-2", state := .inExecution} }

/-- An environment with a healthy idle engine but an in-progress record next to a waiting first execution. -/
def exEnvBusy : ReconcileEnv :=
  { clusterLookup := .found
    ccStatus := some ⟨true, false⟩
    pollOk := true
    postPollStatus := exOpFresh.status
    filteredOps := [exOpFresh, exOpInProg]
    isReadyForRetry := fun _ => true
    dispatchErr := false
    dispatchResult := none
    parseTime := exParse
    now := 99 }

/-- The ordering the spec states for the FirstExecution and RetryExecution buckets: operation-kind priority strictly descending, ties by ascending creation time. -/
def priorityOrdered (a b : CruiseControlOperation) : Prop :=
  executionPriorityMap a.currentTaskOperation > executionPriorityMap b.currentTaskOperation ∨
    (executionPriorityMap a.currentTaskOperation = executionPriorityMap b.currentTaskOperation ∧
      a.creationUnix ≤ b.creationUnix)

/-- The exact archive condition of a post-execution merge: the stored current task state is CompletedWithError, and its Finished timestamp is already set or the incoming result state is terminal (line 391 sets Finished before the archive test of line 396 reads it). -/
def archivesOn (res : ScaleResult) (o : CruiseControlOperation) : Prop :=
  o.status.currentTask.state = .completedWithError ∧
    (o.status.currentTask.finished.isSome = true ∨
      res.state = .completed ∨ res.state = .completedWithError)

instance (res : ScaleResult) (o : CruiseControlOperation) : Decidable (archivesOn res o) := by
  unfold archivesOn
  infer_instance

/-- The snapshot archived into FailedTasks: the stored current task, with Finished set to the merge time when it was still unset and the incoming result state is terminal. -/
def archivedSnapshot (now : Int) (res : ScaleResult) (o : CruiseControlOperation) :
    CruiseControlTask :=
  if (res.state = .completed ∨ res.state = .completedWithError)
      ∧ o.status.currentTask.finished = none then
    {o.status.currentTask with finished := some now}
  else
    o.status.currentTask

instance : IsTotal CruiseControlOperation ccOperationLe := by
  constructor
  intro a b
  unfold ccOperationLe ccOperationLess
  simp only [Bool.or_eq_false_iff, Bool.and_eq_false_iff, decide_eq_false_iff_not, not_lt]
  generalize executionPriorityMap a.currentTaskOperation = pa
  generalize executionPriorityMap b.currentTaskOperation = pb
  generalize a.creationUnix = ta
  generalize b.creationUnix = tb
  omega

instance : IsTrans CruiseControlOperation ccOperationLe := by
  constructor
  intro a b c hab hbc
  unfold ccOperationLe ccOperationLess at hab hbc ⊢
  simp only [Bool.or_eq_false_iff, Bool.and_eq_false_iff, decide_eq_false_iff_not, not_lt]
    at hab hbc ⊢
  revert hab hbc
  generalize executionPriorityMap a.currentTaskOperation = pa
  generalize executionPriorityMap b.currentTaskOperation = pb
  generalize executionPriorityMap c.currentTaskOperation = pc
  generalize a.creationUnix = ta
  generalize b.creationUnix = tb
  generalize c.creationUnix = tc
  intro hab hbc
  omega

/-- C1, counterexample. The claim says a post-execution merge whose dispatch result has state CompletedWithError archives the current task, increments RetryCount and resets the task. On a record whose task was never dispatched, merging a CompletedWithError dispatch result succeeds yet archives nothing: FailedTasks stays empty, RetryCount stays 0, and the task is not reset but filled with the result data. The archive condition of updateResult tests the stored task state, which is only overwritten with the result state at the end of the merge. -/
theorem updateResult_immediate_failure_does_not_archive :
    (updateResult exParse 99 (some exResCWE) exOpFresh true).1 = none ∧
    ((updateResult exParse 99 (some exResCWE) exOpFresh true).2).status.failedTasks = [] ∧
    ((updateResult exParse 99 (some exResCWE) exOpFresh true).2).status.retryCount = 0 ∧
    ((updateResult exParse 99 (some exResCWE) exOpFresh true).2).status.currentTask.id = "task-1" ∧
    ((updateResult exParse 99 (some exResCWE) exOpFresh true).2).status.currentTask.state
      = .completedWithError := by
  decide

/-- C1, amended. A post-execution merge archives the current task into FailedTasks, increments RetryCount by exactly 1 and resets the current task exactly when the stored pre-merge task state is CompletedWithError and either its Finished timestamp is already set or the incoming result state is terminal; the archived snapshot is the stored task with Finished set to the merge time when it was still unset, the reset task ends the merge with Finished unset, and the incoming result data overwrite the reset task when the start time parses, while any other merge leaves FailedTasks and RetryCount unchanged. -/
theorem updateResult_archives_prior_failed_task
    (parseTime : String → Option Int) (now : Int) (res : ScaleResult)
    (o : CruiseControlOperation) :
    (((updateResult parseTime now (some res) o true).2).status.retryCount
        = o.status.retryCount + 1 ↔ archivesOn res o) ∧
    (archivesOn res o →
      ((updateResult parseTime now (some res) o true).2).status.failedTasks
          = evictAndAppend o.status.failedTasks (archivedSnapshot now res o) ∧
      ((updateResult parseTime now (some res) o true).2).status.currentTask.finished = none ∧
      (parseTime res.startedAt = none →
        ((updateResult parseTime now (some res) o true).2).status.currentTask
          = o.status.currentTask.setDefaults) ∧
      (∀ st, parseTime res.startedAt = some st →
        ((updateResult parseTime now (some res) o true).2).status.currentTask
          = {applyResultFields res {o.status.currentTask.setDefaults with started := some st}
              with state := res.state})) ∧
    (¬archivesOn res o →
      ((updateResult parseTime now (some res) o true).2).status.failedTasks
          = o.status.failedTasks ∧
      ((updateResult parseTime now (some res) o true).2).status.retryCount
          = o.status.retryCount) := by
  by_cases hst : o.status.currentTask.state = TaskState.completedWithError
  · cases hfin : o.status.currentTask.finished with
    | some ft =>
      rcases hpt : parseTime res.startedAt with _ | pst
      all_goals
        simp [updateResult, mergeTerminalAndArchive, setCurrentTask, applyResultFields,
          CruiseControlTask.setDefaults, archivesOn, archivedSnapshot, hst, hfin, hpt]
      all_goals try split
      all_goals simp_all
      all_goals try split
      all_goals simp_all
    | none =>
      by_cases hterm : res.state = TaskState.completed ∨ res.state = TaskState.completedWithError
      · have hres : (res.state == TaskState.completed
            || res.state == TaskState.completedWithError) = true := by
          rcases hterm with h | h <;> simp [h]
        rcases hpt : parseTime res.startedAt with _ | pst
        all_goals
          simp [updateResult, mergeTerminalAndArchive, setCurrentTask, applyResultFields,
            CruiseControlTask.setDefaults, archivesOn, archivedSnapshot, hst, hfin, hterm, hres,
            hpt]
        all_goals try split
        all_goals simp_all
        all_goals try split
        all_goals simp_all
      · have hres : (res.state == TaskState.completed
            || res.state == TaskState.completedWithError) = false := by
          simp only [Bool.or_eq_false_iff, beq_eq_false_iff_ne, ne_eq]
          exact ⟨fun h => hterm (Or.inl h), fun h => hterm (Or.inr h)⟩
        rcases hpt : parseTime res.startedAt with _ | pst
        all_goals
          simp [updateResult, mergeTerminalAndArchive, setCurrentTask, applyResultFields,
            CruiseControlTask.setDefaults, archivesOn, archivedSnapshot, hst, hfin, hterm, hres,
            hpt]
        all_goals try split
        all_goals simp_all
        all_goals try split
        all_goals simp_all
  · have hstb : (o.status.currentTask.state == TaskState.completedWithError) = false := by
      simp [hst]
    rcases hpt : parseTime res.startedAt with _ | pst
    all_goals
      simp [updateResult, mergeTerminalAndArchive, setCurrentTask, applyResultFields,
        CruiseControlTask.setDefaults, archivesOn, archivedSnapshot, hst, hstb, hpt]
    all_goals try split
    all_goals simp_all
    all_goals try split
    all_goals simp_all

/-- C1, witness for the amended theorem: the retry dispatch of a previously failed record archives it, while the first failing dispatch of a fresh record archives nothing. -/
theorem updateResult_archives_prior_failed_task_instance :
    ((updateResult exParse 99 (some exResCWE) exOpFailed true).2).status.retryCount = 1 ∧
    ((updateResult exParse 99 (some exResCWE) exOpFailed true).2).status.failedTasks
      = evictAndAppend exOpFailed.status.failedTasks exOpFailed.status.currentTask ∧
    ((updateResult exParse 99 (some exResCWE) exOpFresh true).2).status.retryCount = 0 :=
  ⟨(updateResult_archives_prior_failed_task exParse 99 exResCWE exOpFailed).1.mpr
      ⟨by decide, Or.inl (by decide)⟩,
   by
     have h := (updateResult_archives_prior_failed_task exParse 99 exResCWE exOpFailed).2.1
       ⟨by decide, Or.inl (by decide)⟩
     simpa [archivedSnapshot] using h.1,
   ((updateResult_archives_prior_failed_task exParse 99 exResCWE exOpFresh).2.2
      (by decide)).2⟩

/-- C2. Whenever the StopExecution bucket is non-empty the selector returns its head, regardless of the other buckets and of the retry-readiness predicate, and forces the returned record to task kind stop-execution. -/
theorem selectOperation_stop_precedence
    (isReady : CruiseControlOperation → Bool) (q : OperationQueues)
    (o : CruiseControlOperation) (rest : List CruiseControlOperation)
    (h : q.stop = o :: rest) :
    selectOperationForExecution isReady q
      = some {o with status.currentTask.operation := .stopExecution} ∧
    (selectOperationForExecution isReady q).map (fun s => s.currentTaskOperation)
      = some .stopExecution := by
  unfold selectOperationForExecution
  rw [h]
  simp [CruiseControlOperation.currentTaskOperation]

/-- C2, witness: a bucket map with a stop candidate and a competing first-execution add-broker record. -/
theorem selectOperation_stop_precedence_instance :
    selectOperationForExecution (fun _ => true)
        ⟨[exOpFailed], [exOpFresh], [], [exOpFresh]⟩
      = some {exOpFailed with status.currentTask.operation := .stopExecution} :=
  (selectOperation_stop_precedence (fun _ => true)
    ⟨[exOpFailed], [exOpFresh], [], [exOpFresh]⟩ exOpFailed [] rfl).1

/-- The archive step keeps histories of length at most the maximum at that bound. -/
theorem evictAndAppend_length_le
    (history : List CruiseControlTask) (t : CruiseControlTask)
    (h : history.length ≤ defaultFailedTasksHistoryMaxLength) :
    (evictAndAppend history t).length ≤ defaultFailedTasksHistoryMaxLength := by
  unfold evictAndAppend defaultFailedTasksHistoryMaxLength at *
  split
  · simp
    omega
  · simp
    omega

/-- Folding the archive step from a history of length at most the maximum keeps exactly the suffix of the last 50 combined entries. -/
theorem foldl_evictAndAppend_eq (l : List CruiseControlTask) :
    ∀ acc : List CruiseControlTask, acc.length ≤ defaultFailedTasksHistoryMaxLength →
      List.foldl evictAndAppend acc l
        = (acc ++ l).drop ((acc ++ l).length - defaultFailedTasksHistoryMaxLength) := by
  induction l with
  | nil =>
    intro acc hacc
    simp [Nat.sub_eq_zero_of_le hacc]
  | cons t l ih =>
    intro acc hacc
    by_cases hge : acc.length ≥ defaultFailedTasksHistoryMaxLength
    · have hlen : acc.length = defaultFailedTasksHistoryMaxLength := le_antisymm hacc hge
      have hstep : evictAndAppend acc t = acc.drop 1 ++ [t] := by
        unfold evictAndAppend
        rw [if_pos hge]
      have hlen1 : (acc.drop 1 ++ [t]).length = defaultFailedTasksHistoryMaxLength := by
        simp [hlen]
        unfold defaultFailedTasksHistoryMaxLength at *
        omega
      have := ih (acc.drop 1 ++ [t]) (le_of_eq hlen1)
      rw [List.foldl_cons, hstep, this]
      rw [List.append_assoc, List.singleton_append]
      rw [List.drop_append_eq_append_drop, List.drop_append_eq_append_drop, List.drop_drop]
      have h1 : (acc.drop 1).length = defaultFailedTasksHistoryMaxLength - 1 := by
        simp [hlen]
      unfold defaultFailedTasksHistoryMaxLength at *
      congr 2 <;> simp <;> omega
    · have hstep : evictAndAppend acc t = acc ++ [t] := by
        unfold evictAndAppend
        rw [if_neg hge]
      have hlen1 : (acc ++ [t]).length ≤ defaultFailedTasksHistoryMaxLength := by
        simp
        omega
      have := ih (acc ++ [t]) hlen1
      rw [List.foldl_cons, hstep, this]
      rw [List.append_assoc, List.singleton_append]

/-- C4. The archive step of updateResult keeps a FailedTasks history of length at most 50 at that bound by evicting from the front, and after more than 50 archived failures starting from an empty history the history is exactly the 50 most recent failures in arrival order. -/
theorem failedTasks_bounded_history
    (history : List CruiseControlTask) (t : CruiseControlTask) (l : List CruiseControlTask)
    (hh : history.length ≤ defaultFailedTasksHistoryMaxLength)
    (hl : l.length > defaultFailedTasksHistoryMaxLength) :
    (evictAndAppend history t).length ≤ defaultFailedTasksHistoryMaxLength ∧
    List.foldl evictAndAppend [] l = l.drop (l.length - defaultFailedTasksHistoryMaxLength) ∧
    (List.foldl evictAndAppend [] l).length = defaultFailedTasksHistoryMaxLength := by
  refine ⟨evictAndAppend_length_le history t hh, ?_, ?_⟩
  · have := foldl_evictAndAppend_eq l [] (by simp)
    simpa using this
  · have := foldl_evictAndAppend_eq l [] (by simp)
    simp at this
    rw [this, List.length_drop]
    omega

/-- C4, witness: archiving 51 failures from an empty history leaves exactly the last 50 in order. -/
theorem failedTasks_bounded_history_instance :
    List.foldl evictAndAppend [] exManyTasks
      = exManyTasks.drop (exManyTasks.length - defaultFailedTasksHistoryMaxLength) ∧
    (List.foldl evictAndAppend [] exManyTasks).length = defaultFailedTasksHistoryMaxLength :=
  ⟨(failedTasks_bounded_history [] exFreshTask exManyTasks (by decide) (by decide)).2.1,
   (failedTasks_bounded_history [] exFreshTask exManyTasks (by decide) (by decide)).2.2⟩

/-- C5. Merging a missing result behaves exactly as merging the synthesized result, whose task ID is the record current task ID, whose state is CompletedWithError and which carries the sentinel missing-result error; on the polling path the merge returns no error and leaves the task in state CompletedWithError. -/
theorem updateResult_missing_result_synthesis
    (parseTime : String → Option Int) (now : Int) (o : CruiseControlOperation)
    (hid : o.currentTaskID ≠ "") :
    (∀ b, updateResult parseTime now none o b
        = updateResult parseTime now (some (synthesizeMissingResult o)) o b) ∧
    (synthesizeMissingResult o).taskID = o.currentTaskID ∧
    (synthesizeMissingResult o).state = .completedWithError ∧
    (synthesizeMissingResult o).err = some missingCCResErr ∧
    (updateResult parseTime now none o false).1 = none ∧
    ((updateResult parseTime now none o false).2).status.currentTask.state
      = .completedWithError := by
  refine ⟨fun b => rfl, rfl, rfl, rfl, ?_, ?_⟩ <;>
    simp [updateResult, mergeTerminalAndArchive, setCurrentTask, synthesizeMissingResult]

/-- C5, witness at a record with an assigned job ID. -/
theorem updateResult_missing_result_synthesis_instance :
    (updateResult exParse 99 none exOpFailed false).1 = none ∧
    ((updateResult exParse 99 none exOpFailed false).2).status.currentTask.state
      = .completedWithError :=
  ⟨(updateResult_missing_result_synthesis exParse 99 exOpFailed (by decide)).2.2.2.2.1,
   (updateResult_missing_result_synthesis exParse 99 exOpFailed (by decide)).2.2.2.2.2⟩

/-- C9. Within one task attempt the Finished timestamp is write-once: a set timestamp survives every merge that does not archive the attempt, an unset timestamp stays unset while the incoming result state is not terminal, and it is assigned the merge time on the first terminal result state. -/
theorem updateResult_finished_write_once
    (parseTime : String → Option Int) (now : Int) (res : ScaleResult)
    (o : CruiseControlOperation) (b : Bool) :
    (∀ ft : Int, o.status.currentTask.finished = some ft →
      ¬(b = true ∧ o.status.currentTask.state = .completedWithError) →
      ((updateResult parseTime now (some res) o b).2).status.currentTask.finished = some ft) ∧
    (o.status.currentTask.finished = none →
      res.state ≠ .completed → res.state ≠ .completedWithError →
      ((updateResult parseTime now (some res) o b).2).status.currentTask.finished = none) ∧
    (o.status.currentTask.finished = none →
      (res.state = .completed ∨ res.state = .completedWithError) →
      ¬(b = true ∧ o.status.currentTask.state = .completedWithError) →
      ((updateResult parseTime now (some res) o b).2).status.currentTask.finished = some now) := by
  refine ⟨?_, ?_, ?_⟩
  · intro ft hfin hnoarch
    cases b with
    | false =>
      simp [updateResult, mergeTerminalAndArchive, setCurrentTask, hfin]
    | true =>
      have hst : ¬o.status.currentTask.state = TaskState.completedWithError :=
        fun hc => hnoarch ⟨rfl, hc⟩
      simp [updateResult, mergeTerminalAndArchive, setCurrentTask, applyResultFields, hfin, hst]
      all_goals try split
      all_goals try split
      all_goals first | rfl | exact hfin | simp [hfin]
  · intro hfin h1 h2
    have hres : (res.state == TaskState.completed || res.state == TaskState.completedWithError)
        = false := by
      simp [h1, h2]
    simp [updateResult, mergeTerminalAndArchive, setCurrentTask, applyResultFields, hfin, hres]
    all_goals try split
    all_goals try split
    all_goals try split
    all_goals first | rfl | exact hfin | simp [hfin]
  · intro hfin hterm hnoarch
    have hres : (res.state == TaskState.completed || res.state == TaskState.completedWithError)
        = true := by
      rcases hterm with h | h <;> simp [h]
    cases b with
    | false =>
      simp [updateResult, mergeTerminalAndArchive, setCurrentTask, hfin, hres]
    | true =>
      have hst : ¬o.status.currentTask.state = TaskState.completedWithError :=
        fun hc => hnoarch ⟨rfl, hc⟩
      simp [updateResult, mergeTerminalAndArchive, setCurrentTask, applyResultFields, hfin, hres,
        hst]
      all_goals try split
      all_goals try split
      all_goals first | rfl | simp

/-- C9, witness: a set Finished timestamp survives a polling merge. -/
theorem updateResult_finished_write_once_instance :
    ((updateResult exParse 99 (some exResCWE) exOpFailed false).2).status.currentTask.finished
      = some 50 :=
  (updateResult_finished_write_once exParse 99 exResCWE exOpFailed false).1 50 rfl
    (by simp)

/-- C10. A post-execution merge on a task without a Started timestamp whose result start-time text does not parse returns an error having performed only the first merge phase, so the job ID, summary, error message, HTTP diagnostics and state of the result are not recorded, and the pass tail ends as requeue-with-error. -/
theorem updateResult_start_time_parse_failure
    (parseTime : String → Option Int) (now : Int) (res : ScaleResult)
    (o : CruiseControlOperation)
    (hstart : o.status.currentTask.started = none)
    (hparse : parseTime res.startedAt = none) :
    (updateResult parseTime now (some res) o true).1 = some startTimeParseErrMsg ∧
    (updateResult parseTime now (some res) o true).2 = mergeTerminalAndArchive now res o true ∧
    postDispatch parseTime now false (some res) o
      = (.requeueWithError startTimeParseErrMsg, mergeTerminalAndArchive now res o true) := by
  have h1 : (mergeTerminalAndArchive now res o true).status.currentTask.started = none := by
    simp [mergeTerminalAndArchive, setCurrentTask, CruiseControlTask.setDefaults]
    all_goals try split
    all_goals try split
    all_goals first | rfl | exact hstart | simp [hstart]
  have h2 : updateResult parseTime now (some res) o true
      = (some startTimeParseErrMsg, mergeTerminalAndArchive now res o true) := by
    simp [updateResult, h1, hparse]
  refine ⟨by rw [h2], by rw [h2], ?_⟩
  simp [postDispatch, h2]

/-- C10, witness: a dispatch result with an empty start-time field, which no RFC1123 parser accepts. -/
theorem updateResult_start_time_parse_failure_instance :
    (updateResult exParse 99 (some {exResCWE with startedAt := ""}) exOpFresh true).1
      = some startTimeParseErrMsg ∧
    postDispatch exParse 99 false (some {exResCWE with startedAt := ""}) exOpFresh
      = (.requeueWithError startTimeParseErrMsg,
         mergeTerminalAndArchive 99 {exResCWE with startedAt := ""} exOpFresh true) :=
  ⟨(updateResult_start_time_parse_failure exParse 99 {exResCWE with startedAt := ""} exOpFresh
      rfl rfl).1,
   (updateResult_start_time_parse_failure exParse 99 {exResCWE with startedAt := ""} exOpFresh
      rfl rfl).2.2⟩

/-- C8. A dispatch error with no result ends the pass tail as requeue-with-error with the record untouched; a dispatch error accompanied by a result still merges the result into the record via updateResult. -/
theorem postDispatch_error_handling
    (parseTime : String → Option Int) (now : Int)
    (sel : CruiseControlOperation) (r : ScaleResult) :
    postDispatch parseTime now true none sel
      = (.requeueWithError "CruiseControlOperation custom resource is invalid", sel) ∧
    (postDispatch parseTime now true (some r) sel).2
      = (updateResult parseTime now (some r) sel true).2 := by
  constructor
  · simp [postDispatch]
  · unfold postDispatch
    simp only [Option.isNone_some, Bool.and_false, Bool.false_eq_true, if_false]
    rcases h : updateResult parseTime now (some r) sel true with ⟨e, s⟩
    cases e <;> simp

/-- Arithmetic characterization of the stable-sort order induced by the comparison closure. -/
theorem ccOperationLe_iff (a b : CruiseControlOperation) :
    ccOperationLe a b ↔
      (executionPriorityMap b.currentTaskOperation < executionPriorityMap a.currentTaskOperation ∨
       (executionPriorityMap a.currentTaskOperation = executionPriorityMap b.currentTaskOperation ∧
        a.creationUnix ≤ b.creationUnix)) := by
  unfold ccOperationLe ccOperationLess
  simp only [Bool.or_eq_false_iff, Bool.and_eq_false_iff, decide_eq_false_iff_not, not_lt]
  generalize executionPriorityMap a.currentTaskOperation = pa
  generalize executionPriorityMap b.currentTaskOperation = pb
  generalize a.creationUnix = ta
  generalize b.creationUnix = tb
  constructor
  · intro h
    omega
  · intro h
    omega

/-- The stable-sort order implies the spec ordering. -/
theorem ccOperationLe_priorityOrdered {a b : CruiseControlOperation} (h : ccOperationLe a b) :
    priorityOrdered a b := by
  rw [ccOperationLe_iff] at h
  unfold priorityOrdered
  revert h
  generalize executionPriorityMap a.currentTaskOperation = pa
  generalize executionPriorityMap b.currentTaskOperation = pb
  generalize a.creationUnix = ta
  generalize b.creationUnix = tb
  intro h
  omega

/-- Every sorted bucket is pairwise in the spec ordering. -/
theorem sortQueue_pairwise (q : List CruiseControlOperation) :
    List.Pairwise priorityOrdered (sortQueue q) :=
  (List.sorted_insertionSort ccOperationLe q).imp (fun hab => ccOperationLe_priorityOrdered hab)

/-- C3. The priority weights satisfy add-broker above remove-broker above rebalance; the FirstExecution and RetryExecution buckets are pairwise ordered by kind priority strictly descending with ties by ascending creation time; and the head of a non-empty FirstExecution bucket has maximal kind priority, ties broken by creation time no later than any equal-priority record. -/
theorem sortOperations_priority_order (ops : List CruiseControlOperation) :
    (executionPriorityMap .addBroker > executionPriorityMap .removeBroker ∧
     executionPriorityMap .removeBroker > executionPriorityMap .rebalance) ∧
    List.Pairwise priorityOrdered (sortOperations ops).firstRun ∧
    List.Pairwise priorityOrdered (sortOperations ops).retryRun ∧
    (∀ hd rest, (sortOperations ops).firstRun = hd :: rest →
      ∀ x ∈ (sortOperations ops).firstRun,
        executionPriorityMap x.currentTaskOperation
            ≤ executionPriorityMap hd.currentTaskOperation ∧
        (executionPriorityMap x.currentTaskOperation
            = executionPriorityMap hd.currentTaskOperation →
          hd.creationUnix ≤ x.creationUnix)) := by
  refine ⟨by decide, sortQueue_pairwise _, sortQueue_pairwise _, ?_⟩
  intro hd rest hq x hx
  have hp : List.Pairwise priorityOrdered (sortOperations ops).firstRun := sortQueue_pairwise _
  rw [hq] at hp hx
  rcases List.pairwise_cons.mp hp with ⟨hhead, _⟩
  rcases List.mem_cons.mp hx with hx | hx
  · subst hx
    constructor
    · exact le_refl _
    · intro _
      exact le_refl _
  · have hpo := hhead x hx
    unfold priorityOrdered at hpo
    revert hpo
    generalize executionPriorityMap hd.currentTaskOperation = phd
    generalize executionPriorityMap x.currentTaskOperation = px
    generalize hd.creationUnix = thd
    generalize x.creationUnix = tx
    intro hpo
    omega

/-- C3, witness: in a mixed first-execution set the head of the sorted bucket is the older add-broker record, which dominates the rebalance record. -/
theorem sortOperations_priority_order_instance :
    executionPriorityMap exOpR.currentTaskOperation
        ≤ executionPriorityMap exOpA1.currentTaskOperation ∧
    exOpA1.creationUnix ≤ exOpA2.creationUnix :=
  ⟨((sortOperations_priority_order [exOpR, exOpA2, exOpA1]).2.2.2 exOpA1 [exOpA2, exOpR]
      (by decide) exOpR (by decide)).1,
   ((sortOperations_priority_order [exOpR, exOpA2, exOpA1]).2.2.2 exOpA1 [exOpA2, exOpR]
      (by decide) exOpA2 (by decide)).2 (by decide)⟩

/-- Filtering out a token leaves a list that no longer contains it. -/
theorem contains_filter_ne (l : List String) (g : String) :
    (l.filter (fun f => !(f == g))).contains g = false := by
  induction l with
  | nil => rfl
  | cons a l ih =>
    by_cases h : a = g
    · simp [List.filter_cons, h, ih]
    · simp [List.filter_cons, h, ih, List.contains_cons]
      exact fun hga => h hga.symm

/-- Membership form of contains_filter_ne. -/
theorem not_mem_filter_ne (l : List String) (g : String) :
    g ∉ l.filter (fun f => !(f == g)) := by
  simp [List.mem_filter]

/-- Removing the finalizer leaves a record without it. -/
theorem containsFinalizer_removeFinalizer (o : CruiseControlOperation) :
    containsFinalizer (removeFinalizer o) = false :=
  contains_filter_ne o.finalizers ccOperationFinalizerGroup

/-- Adding the finalizer leaves a record carrying it. -/
theorem containsFinalizer_addFinalizerToken (o : CruiseControlOperation) :
    containsFinalizer (addFinalizerToken o) = true := by
  unfold addFinalizerToken
  split
  · assumption
  · simp [containsFinalizer]

/-- Adding the finalizer does not change the deletion timestamp. -/
theorem addFinalizerToken_deletionUnix (o : CruiseControlOperation) :
    (addFinalizerToken o).deletionUnix = o.deletionUnix := by
  unfold addFinalizerToken
  split <;> rfl

/-- A pass over a record that carries the guard but is not marked for deletion never removes the guard. -/
theorem guard_kept_when_not_marked (env : ReconcileEnv) (op0 : CruiseControlOperation)
    (hc : containsFinalizer op0 = true) (hm : op0.deletionUnix.isSome = false) :
    containsFinalizer (reconcileModel env op0).trigger = true := by
  cases hdel : op0.deletionUnix with
  | some v =>
    rw [hdel] at hm
    simp at hm
  | none =>
    unfold reconcileModel
    repeat' split
    all_goals simp_all [isFinalizerNeeded, addFinalizerToken, containsFinalizer, hdel]
    all_goals repeat' split
    all_goals simp_all

/-- C6, counterexample. The claim says the guard is removed in exactly two situations: done with the guard, or marked for deletion with the task not actively running. Here a record that is not done, is marked for deletion, carries the guard and whose task is actively running still loses the guard, because the referenced kafka cluster is not found. -/
theorem reconcile_removes_guard_cluster_missing :
    exOpRunningDeleting.isDone = false ∧
    exOpRunningDeleting.isCurrentTaskRunning = true ∧
    containsFinalizer exOpRunningDeleting = true ∧
    exOpRunningDeleting.deletionUnix.isSome = true ∧
    containsFinalizer (reconcileModel exEnvClusterGone exOpRunningDeleting).trigger = false := by
  decide

/-- C6, amended. The guard is removed from the triggering record exactly when the record carries it, is marked for deletion, and one of three situations holds: the record is done; or the referenced cluster is not found; or the cluster is found, the engine is reachable and ready, the poll merge succeeds, and the current task is not actively running after the poll merge. In particular a record that is not marked for deletion never loses the guard. -/
theorem reconcile_guard_removal_iff (env : ReconcileEnv) (op0 : CruiseControlOperation) :
    (containsFinalizer op0 = true ∧ containsFinalizer (reconcileModel env op0).trigger = false)
      ↔
    (containsFinalizer op0 = true ∧ op0.deletionUnix.isSome = true ∧
      (op0.isDone = true ∨
        (op0.isCurrentTaskOperationValid = true ∧ ¬op0.clusterRef = "" ∧
          (env.clusterLookup = .notFound ∨
            (env.clusterLookup = .found ∧
              (∃ st, env.ccStatus = some st ∧ st.ready = true ∧ env.pollOk = true ∧
                CruiseControlOperation.isCurrentTaskRunning
                  {op0 with status := env.postPollStatus} = false)))))) := by
  cases hc : containsFinalizer op0 with
  | false => simp [hc]
  | true =>
    cases hm : op0.deletionUnix.isSome with
    | false =>
      simp [hc, hm, guard_kept_when_not_marked env op0 hc hm]
    | true =>
      unfold reconcileModel
      repeat' split
      all_goals
        simp_all [isFinalizerNeeded, addFinalizerToken, containsFinalizer, removeFinalizer,
          not_mem_filter_ne]
      all_goals repeat' split
      all_goals
        simp_all [isFinalizerNeeded, addFinalizerToken, containsFinalizer, removeFinalizer,
          not_mem_filter_ne]

/-- C6, witness for the amended theorem: the cluster-not-found situation at a concrete record. -/
theorem reconcile_guard_removal_iff_instance :
    containsFinalizer exOpRunningDeleting = true ∧
    containsFinalizer (reconcileModel exEnvClusterGone exOpRunningDeleting).trigger = false :=
  (reconcile_guard_removal_iff exEnvClusterGone exOpRunningDeleting).mpr
    ⟨by decide, by decide, Or.inr ⟨by decide, by decide, Or.inl rfl⟩⟩

/-- An empty bucket map selects nothing. -/
theorem select_none_of_empty (isReady : CruiseControlOperation → Bool) (q : OperationQueues)
    (h1 : q.stop = []) (h2 : q.firstRun = []) (h3 : q.retryRun = []) :
    selectOperationForExecution isReady q = none := by
  unfold selectOperationForExecution
  rw [h1, h2, h3]

/-- C7. Whenever the selection for a pass is a non-stop operation and the engine is executing or the InProgress bucket is non-empty, the pass requeues after the fixed interval and dispatches nothing. -/
theorem reconcile_single_flight
    (env : ReconcileEnv) (op0 : CruiseControlOperation) (st : CruiseControlEngineStatus)
    (sel : CruiseControlOperation)
    (hdel : op0.deletionUnix = none)
    (hv : op0.isCurrentTaskOperationValid = true)
    (href : ¬op0.clusterRef = "")
    (hl : env.clusterLookup = .found)
    (hcs : env.ccStatus = some st)
    (hr : st.ready = true)
    (hp : env.pollOk = true)
    (hsel : selectOperationForExecution env.isReadyForRetry (sortOperations env.filteredOps)
      = some sel)
    (hkind : ¬sel.currentTaskOperation = .stopExecution)
    (hbusy : st.inExecution = true ∨ ¬(sortOperations env.filteredOps).inProgress = []) :
    (reconcileModel env op0).outcome = .requeueAfter defaultRequeueIntervalInSeconds ∧
    (reconcileModel env op0).dispatched = none ∧
    (reconcileModel env op0).executed = none := by
  have hfin0 : isFinalizerNeeded op0 = false := by
    simp [isFinalizerNeeded, hdel]
  have hne : ((sortOperations env.filteredOps).stop.isEmpty &&
      (sortOperations env.filteredOps).firstRun.isEmpty &&
      (sortOperations env.filteredOps).retryRun.isEmpty &&
      (sortOperations env.filteredOps).inProgress.isEmpty) = false := by
    rcases he : ((sortOperations env.filteredOps).stop.isEmpty &&
      (sortOperations env.filteredOps).firstRun.isEmpty &&
      (sortOperations env.filteredOps).retryRun.isEmpty &&
      (sortOperations env.filteredOps).inProgress.isEmpty) with _ | _
    · rfl
    · simp only [Bool.and_eq_true, List.isEmpty_iff] at he
      obtain ⟨⟨⟨e1, e2⟩, e3⟩, _⟩ := he
      rw [select_none_of_empty env.isReadyForRetry _ e1 e2 e3] at hsel
      exact Option.noConfusion hsel
  have hbusyb : ((st.inExecution || !(sortOperations env.filteredOps).inProgress.isEmpty) &&
      !(sel.currentTaskOperation == OperationKind.stopExecution)) = true := by
    have hk : (sel.currentTaskOperation == OperationKind.stopExecution) = false := by
      simp [hkind]
    rcases hbusy with hb | hb
    · simp [hb, hk]
    · simp [hk, List.isEmpty_iff, hb]
  unfold reconcileModel
  simp only [hfin0, hv, hl, hcs, hr, hp, hdel, Bool.false_and, Bool.not_true, Bool.false_eq_true,
    if_false, beq_iff_eq, href, Option.isNone_none, if_true]
  simp only [isFinalizerNeeded, addFinalizerToken_deletionUnix, hdel, Option.isSome_none,
    Bool.and_false, Bool.false_and, Bool.false_eq_true, if_false, hsel, hne, hbusyb, if_true]
  exact ⟨trivial, trivial, trivial⟩

/-- C7, witness: a healthy idle engine, a waiting first-execution rebalance record and an in-progress record; the pass requeues without dispatching. -/
theorem reconcile_single_flight_instance :
    (reconcileModel exEnvBusy exOpFresh).outcome
      = .requeueAfter defaultRequeueIntervalInSeconds ∧
    (reconcileModel exEnvBusy exOpFresh).dispatched = none ∧
    (reconcileModel exEnvBusy exOpFresh).executed = none :=
  reconcile_single_flight exEnvBusy exOpFresh ⟨true, false⟩ exOpFresh rfl (by decide) (by decide)
    rfl rfl rfl rfl (by decide) (by decide) (Or.inr (by decide))

end Koperator
